import Mathlib

/-!
Verification development for the database-access core of the `nextpress`
repository (`src/wp-includes/class-wpdb.js` and the backward-compatibility
accessor section found in `src/unnamed/part_000`).

The JavaScript code is shallowly embedded: JS strings are modelled as
`List Char` (or, where the code treats strings as byte buffers, as
`List Nat` of UTF-16 code units), JS objects as association lists, and the
mutable instance state as explicit record values.  JS runtime errors
(`TypeError` / `ReferenceError`, which class bodies raise in strict mode)
are modelled as explicit `thrown`-style result constructors.

Where the class declares a method twice (`prepare`, `_insertReplaceHelper`,
`getTableCharset`), the later declaration wins in JavaScript, so only the
later one is embedded.
-/

namespace Nextpress

/-- The single-quote character (U+0027). -/
def sq : Char := Char.ofNat 39

/-- The backtick character (U+0060). -/
def bt : Char := Char.ofNat 96

/-- JS truthiness of a string: the empty string is falsy, everything else truthy. -/
def strTruthy (s : String) : Bool := s ≠ ""

/-! ## TablePrefixResolver: `getBlogPrefix` (class-wpdb.js lines 738-753)

```js
getBlogPrefix(blogId = null) {
  if (process.env.IS_MULTISITE) {
    if (blogId === null) { blogId = this.blogId; }
    blogId = Number(blogId);
    if (process.env.MULTISITE && (blogId === 0 || blogId === 1)) {
      return this.basePrefix;
    } else {
      return `...basePrefix...blogId..._`;
    }
  }
  return this.basePrefix;
}
```
Note the two distinct environment flags: `IS_MULTISITE` guards the whole
branch, `MULTISITE` guards the tenant-0/1 collapse. -/

/-- Environment flags read by the prefix machinery (`process.env.*` truthiness). -/
structure PrefixEnv where
  isMultisite : Bool
  multisite : Bool

/-- Embedding of `getBlogPrefix`.  `blogIdArg = none` models the `null`
default (falls back to `this.blogId`). -/
def getBlogPrefix (env : PrefixEnv) (basePrefix : String) (thisBlogId : Int)
    (blogIdArg : Option Int) : String :=
  if env.isMultisite then
    let blogId : Int := blogIdArg.getD thisBlogId
    if env.multisite ∧ (blogId = 0 ∨ blogId = 1) then
      basePrefix
    else
      basePrefix ++ toString blogId ++ "_"
  else
    basePrefix

/-! ## TablePrefixResolver: `setPrefix` (class-wpdb.js lines 668-701)

```js
setPrefix(prefix, setTableNames = true) {
  if (/[^a-z0-9_]/i.test(prefix)) { return new Error('Invalid database prefix'); }
  let oldPrefix = process.env.IS_MULTISITE ? '' : prefix;
  if (this.basePrefix) { oldPrefix = this.basePrefix; }
  this.basePrefix = prefix;
  if (setTableNames) {
    for (const [table, prefixedTable] of Object.entries(this.tables('global'))) ...
  }
  return oldPrefix;
}
```
The class declares an instance *field* `tables = ['posts', ...]` (line 207)
in addition to the prototype *method* `tables(scope, ...)` (line 773); the
instance field shadows the method, so `this.tables('global')` throws
`TypeError: this.tables is not a function`.  The `setTableNames = true`
branch therefore throws after `this.basePrefix` has already been assigned. -/

/-- Does a character belong to the class `[a-z0-9_]` up to ASCII case folding
(the `i` flag of `/[^a-z0-9_]/i`)? -/
def isPrefixWordChar (c : Char) : Bool :=
  (Char.ofNat 97 ≤ c ∧ c ≤ Char.ofNat 122) ∨      -- a-z
  (Char.ofNat 65 ≤ c ∧ c ≤ Char.ofNat 90) ∨       -- A-Z via the i flag
  (Char.ofNat 48 ≤ c ∧ c ≤ Char.ofNat 57) ∨       -- 0-9
  c = Char.ofNat 95                                -- underscore

/-- The test `/[^a-z0-9_]/i.test(prefix)`: true iff some character falls outside the class. -/
def invalidCharTest (p : String) : Bool :=
  p.toList.any (fun c => ¬ isPrefixWordChar c)

/-- The spec-side pattern `^[A-Za-z0-9_]+$`: non-empty and every character in
the word class.  (Spec wording; compared against `invalidCharTest` from the
source, which also lets the empty string through.) -/
def specPrefixPattern (p : String) : Bool :=
  p.toList ≠ [] ∧ p.toList.all isPrefixWordChar

/-- The slice of wpdb instance state that `setPrefix` touches. -/
structure PrefixState where
  basePrefix : String
  prefixVal : String
  tableFields : List (String × String)

/-- Result of a `setPrefix` call. -/
inductive SetPrefixResult where
  | err                 -- returned `new Error('Invalid database prefix')`
  | ret (old : String)  -- returned the old prefix
  | thrown              -- TypeError: `this.tables` is the array field, not the method
  deriving DecidableEq, Repr

/-- Embedding of `setPrefix`.  The validation and the early-error return are
before any mutation; on a passing prefix `this.basePrefix` is assigned and
then, when `setTableNames` is requested, `this.tables('global')` throws. -/
def setPrefix (env : PrefixEnv) (st : PrefixState) (p : String)
    (setTableNames : Bool) : SetPrefixResult × PrefixState :=
  if invalidCharTest p then
    (.err, st)
  else
    let oldPrefix := if env.isMultisite then "" else p
    let oldPrefix := if strTruthy st.basePrefix then st.basePrefix else oldPrefix
    let st := { st with basePrefix := p }
    if setTableNames then
      (.thrown, st)
    else
      (.ret oldPrefix, st)

/-! ## Backward-compatibility property setter (src/unnamed/part_000 lines 25-31)

```js
set(name, value) {
  const protectedMembers = ['colMeta', 'tableCharset', 'checkCurrentQuery',
                            'allowUnsafeUnquotedParameters'];
  if (protectedMembers.includes(name)) { return; }
  this[name] = value;
}
```
The dynamic property bag is modelled as an association list from property
name to an opaque value type (plain data properties; no accessors). -/

/-- The protected member list of `set`. -/
def protectedMembers : List String :=
  ["colMeta", "tableCharset", "checkCurrentQuery", "allowUnsafeUnquotedParameters"]

/-- Update an association list at a key (JS plain property assignment:
overwrite in place if present, append otherwise). -/
def assocSet {α : Type} (l : List (String × α)) (k : String) (v : α) :
    List (String × α) :=
  match l with
  | [] => [(k, v)]
  | (k', v') :: t => if k' = k then (k, v) :: t else (k', v') :: assocSet t k v

/-- Lookup in the property bag. -/
def assocGet {α : Type} (l : List (String × α)) (k : String) : Option α :=
  match l with
  | [] => none
  | (k', v') :: t => if k' = k then some v' else assocGet t k

/-- Embedding of the backward-compatibility `set(name, value)`. -/
def compatSet {α : Type} (bag : List (String × α)) (name : String) (value : α) :
    List (String × α) :=
  if name ∈ protectedMembers then bag else assocSet bag name value

/-! ## SchemaCharsetCache: `getTableCharset` (class-wpdb.js lines 2169-2240)

The effective (second) declaration of `getTableCharset`.  On a truthy cache
hit (line 2179) it returns the cached value.  On a cache miss it calls
`this.getResults(...)` at line 2186 *without* `await`: `getResults` is
declared `async` (line 2095), so the call yields a pending Promise.  A
Promise object is truthy, so the `if (!results)` guard at line 2187 does not
fire, and the `for (const column of results)` loop at line 2191 then throws
`TypeError: results is not iterable` -- a Promise has no `Symbol.iterator`.
Every cache-miss call therefore throws before any column inspection,
charset folding, resolution or cache write can run; that downstream code
(lines 2191-2239) is unreachable.  The embedding keeps only the reachable
behaviour: cache hit, or throw, with the cache unchanged. -/

/-- ASCII lower-casing of one character (the table names this code
lowercases are ASCII, where JS `toLowerCase` agrees). -/
def lowerChar (c : Char) : Char :=
  if 'A' ≤ c ∧ c ≤ 'Z' then Char.ofNat (c.toNat + 32) else c

/-- JS `s.toLowerCase()` (ASCII range). -/
def lowerStr (s : String) : String := String.mk (s.toList.map lowerChar)

/-- Result of `getTableCharset`: a cached charset value (`none` = JS `false`)
on a cache hit, or the `TypeError` thrown at line 2191 on every cache miss. -/
inductive TableCharsetResult where
  | val (v : Option String)
  | thrown
  deriving DecidableEq, Repr

/-- JS truthiness of a cached `tableCharset` entry: absent, `false` and the
empty string are falsy. -/
def cacheTruthy (cache : List (String × Option String)) (key : String) : Bool :=
  match assocGet cache key with
  | some (some s) => s ≠ ""
  | _ => false

/-- Embedding of `getTableCharset` (second declaration, lines 2169-2240).
The pre-check filter of line 2171 is the constant `null` placeholder in the
source and is skipped.  A truthy cached entry under the lowercased table
name is returned (line 2180); otherwise the un-awaited `getResults` Promise
is truthy and non-iterable, so the `for...of` at line 2191 throws a
`TypeError` and the cache is left unchanged. -/
def getTableCharset (cache : List (String × Option String)) (table : String) :
    TableCharsetResult × List (String × Option String) :=
  let tableKey := lowerStr table
  if cacheTruthy cache tableKey then
    (.val ((assocGet cache tableKey).getD none), cache)
  else
    (.thrown, cache)


/-! ## ConnectionManager: `checkConnection` (class-wpdb.js lines 1392-1441)
and `dbConnect(false)` (lines 1252-1334)

`dbConnect(allowBail = false)` has exactly three outcomes:
- `createConnection` fails: its catch rethrows (`throw error`, line 1271);
- `this.dbh.connect` fails: its catch sets `this.dbh = null`, so the
  `else if (this.dbh)` arm is dead and the catch falls to `return false`
  (line 1332);
- both phases succeed: every `return` statement sits inside the second
  catch block, so control falls off the end of the function and the call
  resolves to `undefined`.

Both `false` and `undefined` are falsy, so the success branch
`if (await this.dbConnect(false))` of `checkConnection` (line 1409, with
its out-of-scope `originalErrorReporting` read at line 1410) is dead code:
a reconnection attempt either throws out of `checkConnection` (the await
is not wrapped in try/catch) or is falsy and is followed by the fixed
delay.  The probe is abstracted as `probeOk` (the result of
`await this.dbh.query('DO 1')` having positive length); the remaining
strict-mode `ReferenceError` is the read of `originalErrorReporting` at
line 1406 on the last try under `WP_DEBUG`. -/

/-- Flags and state surrounding `checkConnection`. -/
structure ConnFlags where
  wpDebug : Bool           -- process.env.WP_DEBUG
  templateRedirect : Bool  -- process.env.TEMPLATE_REDIRECT
  showErrors : Bool        -- this.showErrors (drives bail)
  dbhPresent : Bool        -- this.dbh truthiness

/-- The value of one `dbConnect(false)` call. -/
inductive DbConnectResult where
  | retFalse      -- second-phase `dbh.connect` failure
  | retUndefined  -- both phases succeeded; the function falls off its end
  | threw         -- `createConnection` failed and the error was rethrown
  deriving DecidableEq, Repr

/-- Embedding of `dbConnect(false)` (lines 1252-1334) as a function of the
two driver phases: a first-phase failure is rethrown (lines 1266-1271), a
second-phase failure returns false through the dead `else if (this.dbh)`
(lines 1297-1332), and success falls off the end to `undefined`. -/
def dbConnectNoBail (phase1Ok phase2Ok : Bool) : DbConnectResult :=
  if ¬ phase1Ok then .threw
  else if ¬ phase2Ok then .retFalse
  else .retUndefined

/-- How a `checkConnection` invocation ends. -/
inductive ConnOutcome where
  | retTrue    -- returned true
  | retFalse   -- returned false
  | retNoValue -- fell off the end (returned undefined) after a non-fatal bail
  | exited     -- bail() called process.exit(1)
  | thrown     -- an exception escaped (rethrown driver error, or a strict-mode ReferenceError)
  deriving DecidableEq, Repr

/-- Embedding of `bail(message, 'db_connect_fail')` as observed from `checkConnection`
(lines 2747-2763): fatal path exits (or throws when `this.dbh` is null,
since the ternary then reads `this.dbh.connectionError`); non-fatal path
returns false and `checkConnection` then falls off its end. -/
def bailOutcome (f : ConnFlags) : ConnOutcome :=
  if f.showErrors then (if f.dbhPresent then .exited else .thrown) else .retNoValue

/-- The retry loop of lines 1403-1418, counting `dbConnect` attempts and
`setTimeout` delays.  `attempt n` is the value of the n-th
`await this.dbConnect(false)`: a `threw` attempt propagates out of
`checkConnection` uncaught; `retFalse`/`retUndefined` are falsy, so the
dead success branch is skipped and the fixed delay runs.  `fuel` bounds the
recursion and is instantiated with enough budget for `retries` iterations.
Returns `some outcome` when the loop returned or threw, `none` when it ran
to completion. -/
def reconnectLoop (f : ConnFlags) (attempt : Nat → DbConnectResult) (retries : Nat) :
    Nat → Nat → Nat → Nat → Option ConnOutcome × Nat × Nat
  | 0, _, att, del => (none, att, del)
  | fuel + 1, tries, att, del =>
    if tries > retries then (none, att, del)
    else if f.wpDebug ∧ retries = tries then
      -- line 1406: `process.env.ERROR_REPORTING = originalErrorReporting` →
      -- ReferenceError (const out of scope)
      (some .thrown, att, del)
    else
      match attempt tries with
      | .threw => (some .thrown, att + 1, del)
      | _ => reconnectLoop f attempt retries fuel (tries + 1) (att + 1) (del + 1)

/-- Embedding of `checkConnection(allowBail)`.  Returns the outcome together
with the number of reconnection attempts (`dbConnect` calls) and the number
of fixed-interval delays observed. -/
def checkConnection (f : ConnFlags) (allowBail : Bool) (probeOk : Bool)
    (attempt : Nat → DbConnectResult) (retries : Nat) : ConnOutcome × Nat × Nat :=
  if f.dbhPresent ∧ probeOk then (.retTrue, 0, 0)
  else
    match reconnectLoop f attempt retries (retries + 1) 1 0 0 with
    | (some o, att, del) => (o, att, del)
    | (none, att, del) =>
      if f.templateRedirect then (.retFalse, att, del)
      else if ¬ allowBail then (.retFalse, att, del)
      else (bailOutcome f, att, del)

/-! ## TextSanitizer: `checkAscii` and `stripInvalidText` (lines 2379-2388, 2458-2520)

JS strings are modelled here as lists of UTF-16 code units (`List Nat`),
because the translated code treats them as byte buffers: the
well-formedness regex of lines 2502-2507 classifies individual code units
against byte ranges such as `[\xC2-\xDF]`.  `Buffer.byteLength(s, 'utf8')`
is embedded as `utf8ByteLen` (surrogate pairs take 4 bytes, lone surrogates
encode as U+FFFD, i.e. 3 bytes). -/

/-- UTF-8 byte count of one BMP code unit (a lone surrogate encodes as the
3-byte replacement character U+FFFD). -/
def unitUtf8Len (a : Nat) : Nat :=
  if a ≤ 0x7F then 1 else if a ≤ 0x7FF then 2 else 3

/-- Node `Buffer.byteLength(value, 'utf8')` and `Buffer.from(value, 'utf8').length`
over UTF-16 code units: a high+low surrogate pair takes 4 bytes. -/
def utf8ByteLen : List Nat → Nat
  | [] => 0
  | [a] => unitUtf8Len a
  | a :: b :: u =>
    if (0xD800 ≤ a ∧ a ≤ 0xDBFF) ∧ (0xDC00 ≤ b ∧ b ≤ 0xDFFF) then
      4 + utf8ByteLen u
    else
      unitUtf8Len a + utf8ByteLen (b :: u)

/-- Embedding of `checkAscii` (lines 2379-2388).  Branch 1 is the Node `'ascii'` encoding
round trip, which masks each unit with `& 0xFF` on write and `& 0x7F` on
read.  Branch 2 tests the literal regex `/[^\\x00-\\x7F]/`; inside a regex
literal `\\` is an escaped backslash, so its class is the characters
`0x30-0x5C` (the range `0`-`\`) together with `x` (0x78) — the string
passes when every unit is in that class (such strings are ASCII anyway). -/
def checkAscii (s : List Nat) : Bool :=
  if s.all (fun u => u % 256 % 128 = u) then true
  else if ¬ s.any (fun u => ¬ ((0x30 ≤ u ∧ u ≤ 0x5C) ∨ u = 0x78)) then true
  else false

/-- Continuation byte test `[\x80-\xBF]`. -/
def isCont (b : Nat) : Bool := 0x80 ≤ b ∧ b ≤ 0xBF

/-- One alternative of the well-formedness regex of lines 2502-2507: try to
match a single valid sequence at the head (1-byte, 2-byte, one of the
3-byte shapes, and the 4-byte shapes only when the charset is `utf8mb4`).
The alternatives' lead units are pairwise disjoint, so matching by length
is equivalent to the regex's ordered alternation. -/
def matchSeq (mb4 : Bool) : List Nat → Option (List Nat × List Nat)
  | [] => none
  | a :: t =>
    if a ≤ 0x7F then some ([a], t)
    else
      match t with
      | [] => none
      | b :: u =>
        if 0xC2 ≤ a ∧ a ≤ 0xDF ∧ isCont b then some ([a, b], u)
        else
          match u with
          | [] => none
          | c :: v =>
            if (a = 0xE0 ∧ 0xA0 ≤ b ∧ b ≤ 0xBF ∧ isCont c) ∨
               (0xE1 ≤ a ∧ a ≤ 0xEC ∧ isCont b ∧ isCont c) ∨
               (a = 0xED ∧ 0x80 ≤ b ∧ b ≤ 0x9F ∧ isCont c) ∨
               (0xEE ≤ a ∧ a ≤ 0xEF ∧ isCont b ∧ isCont c) then
              some ([a, b, c], v)
            else
              match v with
              | [] => none
              | d :: w =>
                if mb4 ∧ ((a = 0xF0 ∧ 0x90 ≤ b ∧ b ≤ 0xBF ∧ isCont c ∧ isCont d) ∨
                          (0xF1 ≤ a ∧ a ≤ 0xF3 ∧ isCont b ∧ isCont c ∧ isCont d) ∨
                          (a = 0xF4 ∧ 0x80 ≤ b ∧ b ≤ 0x8F ∧ isCont c ∧ isCont d)) then
                  some ([a, b, c, d], w)
                else none

/-- The `(...){1,40}` greedy run: match up to `bound` sequences and return
the *last* matched sequence together with the rest.  The replacement string
`'$1'` keeps only the final repetition of the capture group — the capture
group sits inside the quantifier in the translated regex. -/
def matchRun (mb4 : Bool) : Nat → List Nat → Option (List Nat × List Nat)
  | 0, _ => none
  | bound + 1, s =>
    match matchSeq mb4 s with
    | none => none
    | some (q, r) =>
      match matchRun mb4 bound r with
      | none => some (q, r)
      | some p => some p

/-- ECMAScript line terminators, which `.` does not match. -/
def isLineTerm (u : Nat) : Bool := u = 0x0A ∨ u = 0x0D ∨ u = 0x2028 ∨ u = 0x2029

/-- The global replace `value.replace(regex, '$1')` of line 2509: at each
position, a greedy run of up to 40 valid sequences is replaced by its last
sequence; otherwise `.` consumes one unit and replaces it with the empty
string (`$1` did not participate); if even `.` fails (a line terminator
that no sequence alternative covers), the scan advances and the unit stays.
`fuel` bounds the recursion and is instantiated with the input length. -/
def utf8Clean (mb4 : Bool) : Nat → List Nat → List Nat
  | 0, _ => []
  | _ + 1, [] => []
  | fuel + 1, a :: t =>
    match matchRun mb4 40 (a :: t) with
    | some (lastSeq, rest) => lastSeq ++ utf8Clean mb4 fuel rest
    | none =>
      if isLineTerm a then a :: utf8Clean mb4 fuel t
      else utf8Clean mb4 fuel t

/-- The length classification attached to a value by `processFieldLengths`
(via `getColLength`): `{ type, length }` with `length: false` possible. -/
structure LenInfo where
  lengthType : String
  lengthVal : Option Int
  deriving DecidableEq, Repr

/-- The utf8-family membership test of line 2501. -/
def utf8Family : List String := ["utf8", "utf8mb3", "utf8mb4"]

/-- The byte-ceiling truncation of lines 2489-2493 and 2511-2513:
`if (length !== false && Buffer.byteLength(w,'utf8') > length)
 w = w.substring(0, length)` — the cut counts UTF-16 code units, the
trigger counts encoded bytes. -/
def byteTruncate (lengthVal : Option Int) (w : List Nat) : List Nat :=
  match lengthVal with
  | some L => if (utf8ByteLen w : Int) > L then w.take L.toNat else w
  | none => w

/-- Embedding of one iteration of the `stripInvalidText` value loop (lines
2461-2520) for a string value.  `charset = none` models `charset === false`;
`asciiDefined` models `value.ascii !== undefined`; `len = none` models a
non-object `value.length`.  Returns the new value together with the
`value.db` mark (`true` means the value was queued for the server-side
round-trip conversion of lines 2523-2569).  The source computes
`truncateByByteLength = (len.type === 'byte') || shortcut` and `continue`s
when the shortcut fired; here the shortcut and the fall-through are the two
arms of one conditional — the same control flow. -/
def stripValue (charset : Option String) (asciiDefined : Bool)
    (len : Option LenInfo) (v : List Nat) : List Nat × Bool :=
  match charset with
  | none => (v, false)
  | some cs =>
    let lengthVal : Option Int := match len with
      | some li => li.lengthVal
      | none => none
    let truncByByte0 : Bool := match len with
      | some li => decide (li.lengthType = "byte")
      | none => false
    -- lines 2480-2496: under the latin1/pure-ASCII shortcut `truncateByByteLength`
    -- is forced on, the value is byte-truncated and the loop `continue`s
    if cs = "latin1" ∨ (asciiDefined = false ∧ checkAscii v = true) then
      (byteTruncate lengthVal v, false)
    else
      -- otherwise the truncation of lines 2489-2493 runs iff the column length
      -- is byte-classified, and control falls through to the charset dispatch
      let v1 := if truncByByte0 then byteTruncate lengthVal v else v
      if cs ∈ utf8Family then
        let v2 := utf8Clean (decide (cs = "utf8mb4")) v1.length v1
        (byteTruncate lengthVal v2, false)
      else (v1, true)

/-- Spec-side notion of one valid sequence under the declared charset
(§4.3: "valid 1-3-byte sequences, and 4-byte sequences only when the
charset is the 4-byte variant"). -/
def ValidSeq (mb4 : Bool) (q : List Nat) : Prop :=
  match q with
  | [a] => a ≤ 0x7F
  | [a, b] => 0xC2 ≤ a ∧ a ≤ 0xDF ∧ isCont b
  | [a, b, c] =>
      (a = 0xE0 ∧ 0xA0 ≤ b ∧ b ≤ 0xBF ∧ isCont c) ∨
      (0xE1 ≤ a ∧ a ≤ 0xEC ∧ isCont b ∧ isCont c) ∨
      (a = 0xED ∧ 0x80 ≤ b ∧ b ≤ 0x9F ∧ isCont c) ∨
      (0xEE ≤ a ∧ a ≤ 0xEF ∧ isCont b ∧ isCont c)
  | [a, b, c, d] =>
      mb4 = true ∧
      ((a = 0xF0 ∧ 0x90 ≤ b ∧ b ≤ 0xBF ∧ isCont c ∧ isCont d) ∨
       (0xF1 ≤ a ∧ a ≤ 0xF3 ∧ isCont b ∧ isCont c ∧ isCont d) ∨
       (a = 0xF4 ∧ 0x80 ≤ b ∧ b ≤ 0x8F ∧ isCont c ∧ isCont d))
  | _ => False

/-- Spec-side well-formedness: the value is a concatenation of complete
valid sequences (so no truncation point sits inside a multi-byte sequence,
and 4-byte sequences occur only under the 4-byte charset). -/
inductive WFUtf8 (mb4 : Bool) : List Nat → Prop where
  | nil : WFUtf8 mb4 []
  | cons (q t : List Nat) : ValidSeq mb4 q → WFUtf8 mb4 t → WFUtf8 mb4 (q ++ t)

/-! ## PlaceholderCompiler: `prepare` (class-wpdb.js lines 903-1106)

The class declares `prepare` twice; the second declaration (lines 903-1106)
overrides the first and is the one embedded here.  JS strings are modelled
as `List Char`.  The regexes of the source are hand-compiled to scanners
with ECMAScript semantics (ordered alternation, greedy backtracking,
sticky per-position matching as used by `String.prototype.split`, capture
groups included in the split output).

Three strict-mode runtime errors of the source are modelled as `thrown`:
`--placeholderCount` (line 976) and `type = 'F'` (line 980) assign to
`const` bindings, and the dual-use re-parse loop assigns to the undeclared
identifier `placeholder` (line 1031).

`allowedFormat` is built as an ordinary single-quoted JS string (line 926),
in which `\'` is a quote and `\.` is a plain dot, so the compiled pattern is
`(?:[1-9][0-9]*[$])?[-+0-9]*(?: |0|'.)?[-+0-9]*(?:.[0-9]+)?` — the
"precision" dot matches any non-line-terminator character. -/

/-- A JS argument value: the claims only need numbers and strings. -/
inductive JsVal where
  | num (n : Int)
  | str (s : List Char)
  deriving DecidableEq, Repr

/-- JS `parseInt(s, 10)`: skip whitespace, optional sign, then decimal digits;
`none` models `NaN`. -/
def jsParseInt (s : List Char) : Option Int :=
  let s := s.dropWhile (fun c => c = ' ' ∨ c = Char.ofNat 9 ∨ c = Char.ofNat 10 ∨
    c = Char.ofNat 11 ∨ c = Char.ofNat 12 ∨ c = Char.ofNat 13)
  let signAndRest : Bool × List Char :=
    match s with
    | c :: t => if c = '-' then (true, t) else if c = '+' then (false, t) else (false, c :: t)
    | [] => (false, [])
  let digits := signAndRest.2.takeWhile Char.isDigit
  if digits = [] then none
  else
    let n : Int := digits.foldl (fun acc c => acc * 10 + (c.toNat - 48)) 0
    some (if signAndRest.1 then -n else n)

/-- The class `[-+0-9]`. -/
def isBpd (c : Char) : Bool := c = '-' ∨ c = '+' ∨ c.isDigit

/-- ECMAScript line terminators as characters (what `.` refuses to match). -/
def isLineTermC (c : Char) : Bool :=
  c = Char.ofNat 10 ∨ c = Char.ofNat 13 ∨ c = Char.ofNat 0x2028 ∨ c = Char.ofNat 0x2029

/-- Candidates for `(?:[1-9][0-9]*[$])?` in backtracking order
(present-then-absent; `$` is not a digit, so only the maximal digit run can
be followed by `$`). Each candidate is (consumed, rest). -/
def aCands (s : List Char) : List (List Char × List Char) :=
  (match s with
   | c :: _ =>
     if '1' ≤ c ∧ c ≤ '9' then
       let run := s.takeWhile Char.isDigit
       match s.drop run.length with
       | d :: r2 => if d = '$' then [(run ++ [d], r2)] else []
       | [] => []
     else []
   | [] => []) ++ [([], s)]

/-- Candidates for a greedy `X*` over a character class: all prefixes of the
maximal run, longest first. -/
def starCands (p : Char → Bool) (s : List Char) : List (List Char × List Char) :=
  let run := s.takeWhile p
  (List.range (run.length + 1)).reverse.map (fun k => (s.take k, s.drop k))

/-- Candidates for `(?: |0|'.)?` in alternation order (space, zero, quote
followed by any non-line-terminator), then absent. -/
def cCands (s : List Char) : List (List Char × List Char) :=
  (match s with
   | c :: t =>
     if c = ' ' then [([c], t)]
     else if c = '0' then [([c], t)]
     else if c = sq then
       match t with
       | d :: u => if isLineTermC d then [] else [([c, d], u)]
       | [] => []
     else []
   | [] => []) ++ [([], s)]

/-- Candidates for `(?:.[0-9]+)?`: any non-line-terminator character then a
greedy non-empty digit run (longest first), then absent. -/
def eCands (s : List Char) : List (List Char × List Char) :=
  (match s with
   | c :: t =>
     if isLineTermC c then []
     else
       let run := t.takeWhile Char.isDigit
       (List.range run.length).reverse.map (fun k => (c :: t.take (k + 1), t.drop (k + 1)))
   | [] => []) ++ [([], s)]

/-- All parses of `allowedFormat` at the head of `s`, as (consumed, rest)
pairs in the regex's backtracking order. -/
def fmtCands (s : List Char) : List (List Char × List Char) :=
  (aCands s).flatMap fun a1 =>
    (starCands isBpd a1.2).flatMap fun b1 =>
      (cCands b1.2).flatMap fun c1 =>
        (starCands isBpd c1.2).flatMap fun d1 =>
          (eCands d1.2).map fun e1 =>
            (a1.1 ++ b1.1 ++ c1.1 ++ d1.1 ++ e1.1, e1.2)

/-- The conversion characters `[sdfFi]`. -/
def isConvChar (c : Char) : Bool :=
  c = 's' ∨ c = 'd' ∨ c = 'f' ∨ c = 'F' ∨ c = 'i'

/-- Match `(allowedFormat)?[sdfFi]` at the head of `s` (the text following a
`%`), returning the captured format, the conversion character and the rest;
the first candidate in backtracking order wins, exactly as the regex
engine's first successful path determines the capture. -/
def placeholderBodyAt (s : List Char) : Option (List Char × Char × List Char) :=
  (fmtCands s).findSome? fun fc =>
    match fc.2 with
    | c :: t => if isConvChar c then some (fc.1, c, t) else none
    | [] => none

/-- Line 933: `query.replace(/%(?!(fmt)?[sdfFi])/g, '%%$1')` — every `%` not
followed by a valid placeholder body is doubled (`$1` sits inside the
failed lookahead and is always empty). -/
def escapePercents : List Char → List Char
  | [] => []
  | c :: t =>
    if c = '%' ∧ (placeholderBodyAt t).isNone then '%' :: '%' :: escapePercents t
    else c :: escapePercents t

/-- Backtracking head of the quote-strip patterns: given the text after
`q1 %`, the largest `k ≥ 1` with `t.take k` quote-free and `%` `q2`
following (greedy `[^']+` then backtrack). -/
def qsMatchLen (q2 : Char) (t : List Char) : Option Nat :=
  let m := (t.takeWhile (fun c => c ≠ sq)).length
  ((List.range m).reverse.map (· + 1)).find? fun k =>
    t.get? k = some '%' ∧ t.get? (k + 1) = some q2

/-- Lines 929-930: the global replaces `/'%([^']+)%'/g → '%$1%'` and
`/"%([^']+)%"/g → '%$1%'` (note the inner class is `[^']` in both).
`fuel` is instantiated with the string length. -/
def quoteStrip (q1 q2 : Char) : Nat → List Char → List Char
  | 0, s => s
  | _ + 1, [] => []
  | fuel + 1, c :: t =>
    if c = q1 then
      match t with
      | c2 :: t2 =>
        if c2 = '%' then
          match qsMatchLen q2 t2 with
          | some k => '%' :: (t2.take k ++ '%' :: quoteStrip q1 q2 fuel (t2.drop (k + 2)))
          | none => c :: quoteStrip q1 q2 fuel t
        else c :: quoteStrip q1 q2 fuel t
      | [] => [c]
    else c :: quoteStrip q1 q2 fuel t

/-- Try the placeholder part `%(fmt)?[sdfFi]` at the head of `t`, returning
(placeholder text, captured format, rest). -/
def tryPlaceholderAt (t : List Char) : Option (List Char × List Char × List Char) :=
  match t with
  | c :: u =>
    if c = '%' then
      (placeholderBodyAt u).map fun bo => ('%' :: bo.1 ++ [bo.2.1], bo.1, bo.2.2)
    else none
  | [] => none

/-- Maximal count of leading `%%` pairs (for the glue alternative `(?:%%)+`). -/
def pairsCount : List Char → Nat
  | c1 :: c2 :: t => if c1 = '%' ∧ c2 = '%' then 1 + pairsCount t else 0
  | _ => 0

/-- Try the whole split pattern `(^|[^%]|(?:%%)+)(%(fmt)?[sdfFi])` anchored
at the current position, alternatives in order; returns
(glue, placeholder, format, rest). -/
def tryGlueMatch (atStart : Bool) (s : List Char) :
    Option (List Char × List Char × List Char × List Char) :=
  let alt1 : Option (List Char × List Char × List Char × List Char) :=
    if atStart then (tryPlaceholderAt s).map (fun m => ([], m.1, m.2.1, m.2.2)) else none
  let alt2 : Option (List Char × List Char × List Char × List Char) :=
    match s with
    | c :: u =>
      if c ≠ '%' then (tryPlaceholderAt u).map (fun m => ([c], m.1, m.2.1, m.2.2))
      else none
    | [] => none
  let alt3 : Option (List Char × List Char × List Char × List Char) :=
    ((List.range (pairsCount s)).reverse.map (· + 1)).findSome? fun j =>
      (tryPlaceholderAt (s.drop (2 * j))).map fun m =>
        (s.take (2 * j), m.1, m.2.1, m.2.2)
  (alt1.orElse fun _ => alt2).orElse fun _ => alt3

/-- Line 936: `query.split(new RegExp(...))`.  `String.prototype.split`
matches the pattern sticky at each successive position and interleaves the
segments with *all* capture groups — including the inner `(fmt)` group, so
each placeholder contributes four consecutive slots
(text, glue, placeholder, format).  Per the RepeatMatcher empty check of
ECMAScript quantifiers (the `/(a*)?/` rule), an iteration of `(fmt)?` that
consumes nothing is discarded, so when the format is empty the capture is
`undefined` (`none` here), not the empty string; a non-empty format
participates and captures its text. -/
def splitLoop : Nat → Bool → List Char → List Char →
    List (Option (List Char)) → List (Option (List Char))
  | 0, _, _, cur, acc => acc ++ [some cur]
  | fuel + 1, atStart, s, cur, acc =>
    match s with
    | [] => acc ++ [some cur]
    | c :: t =>
      match tryGlueMatch atStart s with
      | some m => splitLoop fuel false m.2.2.2 []
          (acc ++ [some cur, some m.1, some m.2.1,
                   if m.2.2.1 = [] then none else some m.2.2.1])
      | none => splitLoop fuel false t (cur ++ [c]) acc

/-- Array access `splitQuery[i]` coerced to a string by concatenation: an
out-of-range read and an undefined capture slot both yield `undefined`,
which string concatenation renders as "undefined".  (Method calls such as
`.slice` on an undefined slot throw instead; the loop embeddings below
model those throws explicitly.) -/
def jsStr (o : Option (Option (List Char))) : List Char :=
  match o with
  | some (some s) => s
  | _ => "undefined".toList

/-- The literal characters of line 985, `'\`%${format}s\`'` — a
single-quoted string, not a template literal, so `${format}` is literal
text. -/
def identLiteralChars : List Char :=
  [bt, '%', '$', Char.ofNat 123] ++ "format".toList ++ [Char.ofNat 125, 's', bt]

/-- Mutable state of the main placeholder loop. -/
structure PrepLoopSt where
  newQuery : List Char
  argIdents : List (Option Int)
  argStrs : List (Option Int)
  deriving Repr

/-- The result of a `prepare` call. -/
inductive PrepResult where
  | thrown                  -- a TypeError / ReferenceError escaped
  | nullRes                 -- returned null
  | strRes (s : List Char)  -- returned a string
  deriving DecidableEq, Repr

/-- The main `while (key < splitQueryCount)` loop of lines 955-1015, with
`key` advancing by 3 over the 4-stride split slots.  `none` in the index
lists models a `NaN` argument position (`parseInt` of a non-numeric argnum
prefix, minus one).  Throws modelled as `.error`:
an undefined slot at `key` hits `placeholder.slice(1, -1)` (line 958);
an `f`-typed slot reaches either `--placeholderCount` (line 976) or
`type = 'F'` (line 980), both `const` assignments (and when the legacy
guard's third conjunct is reached with an undefined previous slot, its
`.slice` throws first — every `f` path throws);
and in the string branch, when `allowUnsafe` holds and the format is empty,
the condition of lines 1004-1005 evaluates `splitQuery[key - 1].slice(-1)`,
which throws when that slot is an undefined format capture (the other
disjunct orderings short-circuit before the slice). -/
def prepLoop (sqr : List (Option (List Char))) (allowUnsafe : Bool) :
    Nat → Nat → Int → PrepLoopSt → Except Unit (PrepLoopSt × Nat)
  | 0, key, _, st => .ok (st, key)
  | fuel + 1, key, argID, st =>
    if key < sqr.length then
      match (sqr.get? key).getD none with
      | none => .error ()
      | some ph =>
        let format := (ph.drop 1).dropLast
        let type : Option Char := ph.getLast?
        if type = some 'f' then .error ()
        else
          let argnumIdx := format.findIdx? (fun c => c = '$')
          let argPos : Option Int :=
            match argnumIdx with
            | some i => (jsParseInt (format.take i)).map (fun n => n - 1)
            | none => some argID
          let quoted : List Char := sq :: '%' :: (format ++ 's' :: [sq])
          let step : Except Unit (List Char × PrepLoopSt) :=
            if type = some 'i' then
              .ok (identLiteralChars, { st with argIdents := st.argIdents ++ [argPos] })
            else if type ≠ some 'd' ∧ type ≠ some 'F' then
              let st := { st with argStrs := st.argStrs ++ [argPos] }
              if ¬ allowUnsafe then .ok (quoted, st)
              else if format ≠ [] then .ok (ph, st)
              else
                match (sqr.get? (key - 1)).getD none with
                | none => .error ()
                | some prev =>
                  if prev.getLast? ≠ some '%' then .ok (quoted, st) else .ok (ph, st)
            else .ok (ph, st)
          match step with
          | .error _ => .error ()
          | .ok pst =>
            let newQ := pst.2.newQuery ++ jsStr (sqr.get? (key - 2)) ++
              jsStr (sqr.get? (key - 1)) ++ pst.1
            prepLoop sqr allowUnsafe fuel (key + 3) (argID + 1)
              { pst.2 with newQuery := newQ }
    else .ok (st, key)

/-- Lines 1072-1084: the maximum explicitly numbered placeholder, scanned
from slots 2, 5, 8, … as `parseInt(splitQuery[i].slice(1), 10)` (`NaN`
never updates the maximum).  A scanned slot that is an undefined format
capture throws at the `.slice(1)` call. -/
def maxNumbered (sqr : List (Option (List Char))) : Nat → Nat → Int → Except Unit Int
  | 0, _, acc => .ok acc
  | fuel + 1, i, acc =>
    if i < sqr.length then
      match (sqr.get? i).getD none with
      | none => .error ()
      | some s =>
        let argnum := jsParseInt (s.drop 1)
        let acc := match argnum with
          | some n => if acc < n then n else acc
          | none => acc
        maxNumbered sqr fuel (i + 3) acc
    else .ok acc

/-- Embedding of `escapeIdentifierValue` (src/unnamed/part_000 lines 148-150): double
every backtick. -/
def escapeIdentifierValue (s : List Char) : List Char :=
  s.flatMap fun c => if c = bt then [bt, bt] else [c]

/-- Modelled from the spec: the body of `realEscape` is truncated mid-regex
in the repository dump (src/unnamed/part_000 lines 152-160 break off inside
`data.replace(/[\`). Per spec §4.2 step 5, string values have "internal
quotes doubled" (the surrounding quotes come from the `'%…s'` placeholder
rewrite), so the escape doubles single-quote characters.  The claims
settled below do not depend on this body — `prepare` takes the escape
function as an explicit parameter. -/
def specRealEscape (s : List Char) : List Char :=
  s.flatMap fun c => if c = sq then [sq, sq] else [c]

/-- The argument-escaping loop of lines 1088-1102.  An identifier-position
argument that is a number throws (`.replace` is not a function on numbers);
string values go through the injected `realEscape`. -/
def escapeArgs (argIdents : List (Option Int)) (esc : List Char → List Char) :
    List JsVal → Int → Except Unit (List JsVal)
  | [], _ => .ok []
  | v :: t, i =>
    let e : Except Unit JsVal :=
      if argIdents.contains (some i) then
        match v with
        | .str s => .ok (.str (escapeIdentifierValue s))
        | .num _ => .error ()
      else
        match v with
        | .num n => .ok (.num n)
        | .str s => .ok (.str (esc s))
    match e with
    | .error _ => .error ()
    | .ok ev => (escapeArgs argIdents esc t (i + 1)).map (fun r => ev :: r)

/-- The substitution `argsEscaped.shift() || ''`: falsy replacements (exhausted queue, the
number 0, the empty string) substitute as the empty string; numbers are
rendered in decimal. -/
def jsValToSubst : Option JsVal → List Char
  | some (.num n) => if n = 0 then [] else (toString n).toList
  | some (.str s) => s
  | none => []

/-- Line 1104: `query.replace(/%(?!^\d+\$)/g, () => argsEscaped.shift() || '')`.
The `^` inside the lookahead can only match at position 0 of the string,
which is never the position *after* a `%`, so the negative lookahead always
succeeds: every `%` is replaced by the next escaped argument. -/
def substPercents : List JsVal → List Char → List Char
  | _, [] => []
  | queue, c :: t =>
    if c = '%' then jsValToSubst queue.head? ++ substPercents queue.tail t
    else c :: substPercents queue t

/-- Embedding of `addPlaceholderEscape` (line 1624): replace every remaining `%` with the
process-scoped escape token (nondeterministic in the source — an HMAC of a
salt and timestamp — hence a parameter here). -/
def addPlaceholderEscape (tok : List Char) (s : List Char) : List Char :=
  s.flatMap fun c => if c = '%' then tok else [c]

/-- Embedding of the effective `prepare` (lines 903-1106) for a string
query.  `allowUnsafe` is `this.allowUnsafeUnquotedParameters` (field default
`true`, line 483); `esc` is `this.realEscape`; `tok` the placeholder-escape
token; `passedAsArray` records whether the caller passed one array argument
(the vsprintf-style calling convention of lines 944-947). -/
def prepare (allowUnsafe : Bool) (esc : List Char → List Char) (tok : List Char)
    (query : List Char) (args : List JsVal) (passedAsArray : Bool) : PrepResult :=
  if ¬ query.contains '%' then .strRes query
  else
    let query := quoteStrip sq sq (query.length + 1) query
    let query := quoteStrip '"' '"' (query.length + 1) query
    let query := escapePercents query
    let sqr := splitLoop (query.length + 1) true query [] []
    match prepLoop sqr allowUnsafe (sqr.length + 1) 2 0 ⟨[], [], []⟩ with
    | .error _ => .thrown
    | .ok (st, finalKey) =>
      let q2 := st.newQuery ++ jsStr (sqr.get? (finalKey - 2))
      let dualUse := st.argIdents.filter (fun x => st.argStrs.contains x)
      if dualUse ≠ [] then
        -- line 1031: `placeholder = splitQuery[key]` assigns to an undeclared
        -- identifier in strict mode → ReferenceError before `return null`
        .thrown
      else
        let scount := sqr.length
        let argsCount := args.length
        let finish : PrepResult :=
          match escapeArgs st.argIdents esc args 0 with
          | .error _ => .thrown
          | .ok escd => .strRes (addPlaceholderEscape tok (substPercents escd q2))
        -- placeholderCount = (scount - 1) / 3 in IEEE doubles; for the integer
        -- comparisons below this is exact iff 3 | (scount - 1)
        if 3 * argsCount ≠ scount - 1 then
          if scount - 1 = 3 ∧ passedAsArray then .nullRes
          else if 3 * argsCount < scount - 1 then
            match maxNumbered sqr (scount + 1) 2 0 with
            | .error _ => .thrown
            | .ok maxNum =>
              if maxNum = 0 ∨ (argsCount : Int) < maxNum then .strRes []
              else finish
          else finish
        else finish

/-! ## CRUD Façade: `update` (class-wpdb.js lines 1760-1803) and
`processFields` (lines 1857-1890)

`update` (like `delete`, line 1817) begins with
`if (!Array.isArray(data) || !Array.isArray(where)) return false;` although
its own doc comment specifies plain objects ("Data to update (in column =>
value pairs)"), so every documented call returns `false` at once.  For
array arguments it calls `processFields`, whose body (lines 1857-1890)
chains `processFieldFormats` (always returns the data object, lines
1899-1919), `processFieldCharsets` / `processFieldLengths` (return the data
object or `throw`, lines 1930-1973) and `stripInvalidText` (an async
function, so a truthy Promise), then falls off its end **without a return
statement** — its value is always `undefined`, which is `!== false`, so
`update` proceeds into `Object.entries(undefined)` and throws a TypeError
(line 1777).  No UPDATE statement can ever be built. -/

/-- A JS value passed as a column map entry (`none` models `null`). -/
inductive JsArg where
  | arr (elems : List (Option JsVal))               -- a JS Array
  | obj (fields : List (String × Option JsVal))     -- a plain object
  deriving Repr

/-- JS `Array.isArray`. -/
def isArrayJs : JsArg → Bool
  | .arr _ => true
  | .obj _ => false

/-- The value of a `processFields` call that did not throw: the source
function has no return statement on its fall-through path. -/
inductive ProcessFieldsValue where
  | noRet    -- fell off the end: undefined
  | thrownPF -- processFieldCharsets / processFieldLengths threw
  deriving DecidableEq, Repr

/-- Embedding of `processFields` (lines 1857-1890): the charset/length processors may
throw (depending on schema introspection, abstracted as
`introspectionThrows`); otherwise the function falls through and yields
`undefined`. -/
def processFields (introspectionThrows : Bool) : ProcessFieldsValue :=
  if introspectionThrows then .thrownPF else .noRet

/-- How an `update` call ends.  There is no SQL-producing constructor:
no execution path of the source reaches the `UPDATE`-building code. -/
inductive UpdateResult where
  | retFalse  -- returned false
  | thrown    -- an exception escaped
  deriving DecidableEq, Repr

/-- Embedding of `update(table, data, where, format, whereFormat)` (lines
1760-1803) up to the point where SQL could be emitted. -/
def updateCall (data whereArg : JsArg) (introspectionThrows : Bool) : UpdateResult :=
  if ¬ (isArrayJs data ∧ isArrayJs whereArg) then .retFalse
  else
    match processFields introspectionThrows with
    | .thrownPF => .thrown
    | .noRet => .thrown  -- line 1777: Object.entries(undefined) → TypeError

/-! ## Concrete claim inputs -/

/-- The C1 template `"SELECT * FROM t WHERE id = %d AND name = %s"`. -/
def c1Query : List Char := "SELECT * FROM t WHERE id = %d AND name = %s".toList

/-- The C1 arguments `5` and `"O\x27Brien"`. -/
def c1Args : List JsVal := [.num 5, .str ("O".toList ++ [sq] ++ "Brien".toList)]

/-- The SQL string the C1 claim expects:
`SELECT * FROM t WHERE id = 5 AND name = \x27O\x27\x27Brien\x27`. -/
def c1Expected : List Char :=
  "SELECT * FROM t WHERE id = 5 AND name = ".toList ++
    [sq, 'O', sq, sq] ++ "Brien".toList ++ [sq]

/-- The C2 template `"%1$i %1$s"`: argument index 1 used both as identifier
and as string value. -/
def c2Query : List Char := "%1$i %1$s".toList

/-- The C2 arguments. -/
def c2Args : List JsVal := [.str "t".toList, .str "x".toList]

/-- What the embedded `prepare` actually produces for the C2 input (the
glued-together text includes the literal `\x60%$\x7bformat\x7ds\x60` from
line 985 and the trailing "undefined" from the out-of-range
`splitQuery[key - 2]` read). -/
def c2Observed : List Char :=
  [bt, 't', '$', Char.ofNat 123] ++ "format".toList ++
    [Char.ofNat 125, 's', bt, '1', '$', sq, 'x', 's', sq, '1', '$', 's', '1', '$',
      sq, 's', sq] ++ "undefined".toList

/-- The C3 template `"%s %s 1x"`: two unnumbered placeholders, no numbered
placeholder, and trailing literal text whose slice parses as the number 1. -/
def c3Query : List Char := "%s %s 1x".toList

/-- The C3 arguments: a single argument for two placeholders. -/
def c3Args : List JsVal := [.str "a".toList]

/-- What the embedded `prepare` actually produces for the C3 input: the
three undefined capture slots concatenated at lines 961-963 render as the
text `undefined`. -/
def c3Observed : List Char :=
  [sq, 'a', 's', sq] ++ "undefined".toList ++ [sq, 's', sq, 's'] ++
    "undefined".toList ++ " 1x".toList ++ "undefined".toList

/-- Sample byte-string value for the C5 witness: an ASCII byte followed by
one 4-byte UTF-8 sequence (5 bytes total). -/
def c5V : List Nat := [0x61, 0xF0, 0x9F, 0x98, 0x80]

/-- A sample single-site environment for witnesses. -/
def env0 : PrefixEnv := ⟨false, false⟩

/-- A sample fresh prefix state for witnesses. -/
def pst0 : PrefixState := ⟨"", "", []⟩

/-! # Theorems -/

/-- C1: the claim says `prepare("SELECT * FROM t WHERE id = %d AND name = %s",
5, "O\x27Brien")` returns exactly
`SELECT * FROM t WHERE id = 5 AND name = \x27O\x27\x27Brien\x27`.  Evaluating the
effective `prepare` (lines 903-1106) at that input instead throws a
`TypeError`, for every injected escape function and placeholder-escape
token: `String.prototype.split` with the extra `(fmt)?` capture group
yields 9 slots, so `placeholderCount = 8/3` and the argument count 2
compares as "too few"; the numbered-placeholder rescue scan of lines
1001-1015 then reads slot 7 at `key = 8` -- the optional `(fmt)?` capture
of the second placeholder, which matched the empty repetition and is
therefore `undefined` under ECMAScript capture semantics -- and
`splitQuery[7].slice(-1)` at line 1005 throws `TypeError: Cannot read
properties of undefined`.  This contradicts the function's own doc comment
(lines 850-874) and the first, shadowed `prepare` declaration (lines
876-892), which would produce the claimed string. -/
theorem c1_prepare_basic_substitution (esc : List Char → List Char) (tok : List Char) :
    prepare true esc tok c1Query c1Args false = .thrown ∧
    PrepResult.thrown ≠ .strRes c1Expected := by
  exact ⟨by rfl, by simp⟩

/-- C2: the claim says a compile in which one argument index is referenced
both by `%i` and by `%s` is rejected (a failure value, no SQL string).
Evaluating `prepare` at the template `"%1$i %1$s"` (argument index 1 in
both roles) shows compilation proceeds and returns a (garbled) SQL string:
the 4-stride split slots are walked with stride 3, so the second real
placeholder `%1$s` is never classified, `argIdentifiers = [0]` and
`argStrings = [1, 2]` are disjoint, and the dual-use rejection at lines
1020-1057 never fires. -/
theorem c2_dual_role_not_rejected (tok : List Char) :
    prepare true specRealEscape tok c2Query c2Args false = .strRes c2Observed ∧
    PrepResult.strRes c2Observed ≠ .nullRes := by
  exact ⟨by rfl, by simp⟩

/-- C3: the claim says that with too few arguments `prepare` returns the
empty string exactly when no explicitly numbered placeholder exists (or the
highest one is not covered).  The template `"%s %s 1x"` with one argument
has two placeholders, both unnumbered, so the claim requires `''`; but the
max-numbered scan of lines 1001-1015 walks slots 2, 5, 8 of the 4-stride
split and runs `parseInt(' 1x'.slice(1))` on the trailing *literal text*,
finds `1`, deems it covered, and compilation proceeds to the non-empty
result `\x27as\x27undefined\x27s\x27sundefined 1xundefined` (every undefined
capture slot concatenated at lines 961-963 renders as `undefined`). -/
theorem c3_too_few_args_not_empty (tok : List Char) :
    prepare true specRealEscape tok c3Query c3Args false = .strRes c3Observed ∧
    c3Observed ≠ [] := by
  exact ⟨by rfl, by decide⟩

/-- C9: the claim says null-valued columns are emitted as the literal SQL
word NULL.  Evaluating `update` at its documented input shape — object
column maps, here `update(t, {name: null}, {id: 1})` — returns `false`
immediately at the `Array.isArray` guard of line 1761, regardless of
whether schema introspection would throw; no SQL (and hence no `NULL`) is
ever emitted.  (Array-shaped arguments fare no better: `processFields`
has no return statement, so `Object.entries(undefined)` throws.) -/
theorem c9_update_never_reaches_null_emission (introspectionThrows : Bool) :
    updateCall (.obj [("name", none)]) (.obj [("id", some (.num 1))])
      introspectionThrows = .retFalse ∧
    (∀ d w t, updateCall d w t = .retFalse ∨ updateCall d w t = .thrown) := by
  refine ⟨rfl, fun d w t => ?_⟩
  cases d <;> cases w <;> cases t <;> simp [updateCall, isArrayJs, processFields]

/-- C4: every cache-miss call of `getTableCharset` throws.  The resolution
logic the claim describes (binary short circuit, `utf8mb3 → utf8` folding,
latin1 drop, `\x7butf8, utf8mb4\x7d → utf8`, ascii fallback, cache write) sits at
lines 2191-2239 after the un-awaited `getResults` call of line 2186; the
pending Promise is truthy and non-iterable, so the `for...of` at line 2191
raises a `TypeError` first, and no resolution or cache write ever runs. -/
theorem c4_charset_resolution_unreachable (cache : List (String × Option String))
    (table : String) (hmiss : cacheTruthy cache (lowerStr table) = false) :
    getTableCharset cache table = (.thrown, cache) := by
  simp [getTableCharset, hmiss]

/-- Witness for C4: the very first lookup of `wp_posts` on an empty cache
throws and caches nothing. -/
theorem c4_charset_resolution_unreachable_witness :
    cacheTruthy [] (lowerStr "wp_posts") = false ∧
    getTableCharset [] "wp_posts" = (.thrown, []) :=
  ⟨by decide, c4_charset_resolution_unreachable [] "wp_posts" (by decide)⟩


/-- A successful single-sequence match splits the input and yields a valid
sequence in the spec's sense. -/
theorem matchSeq_spec (mb4 : Bool) (s q r : List Nat)
    (h : matchSeq mb4 s = some (q, r)) :
    s = q ++ r ∧ 0 < q.length ∧ ValidSeq mb4 q := by
  unfold matchSeq at h
  repeat' split at h
  all_goals simp only [Option.some.injEq, Prod.mk.injEq, reduceCtorEq] at h
  all_goals obtain ⟨rfl, rfl⟩ := h
  all_goals refine ⟨rfl, by simp, ?_⟩
  all_goals simp_all [ValidSeq]

/-- A successful greedy run yields a valid last sequence, consumes at least
one unit, and leaves a suffix of the input. -/
theorem matchRun_spec (mb4 : Bool) (b : Nat) (s q r : List Nat)
    (h : matchRun mb4 b s = some (q, r)) :
    ValidSeq mb4 q ∧ 0 < q.length ∧ q.length + r.length ≤ s.length ∧
    ∃ pre, s = pre ++ r := by
  induction b generalizing s q r with
  | zero => simp [matchRun] at h
  | succ n ih =>
    cases hms : matchSeq mb4 s with
    | none => simp [matchRun, hms] at h
    | some p =>
      obtain ⟨q0, r0⟩ := p
      obtain ⟨hs0, hq0len, hv0⟩ := matchSeq_spec mb4 s q0 r0 hms
      cases hmr : matchRun mb4 n r0 with
      | none =>
        simp only [matchRun, hms, hmr, Option.some.injEq, Prod.mk.injEq] at h
        obtain ⟨rfl, rfl⟩ := h
        refine ⟨hv0, hq0len, by rw [hs0]; simp, ⟨q0, hs0⟩⟩
      | some p' =>
        simp only [matchRun, hms, hmr, Option.some.injEq] at h
        subst h
        obtain ⟨hv', hlen', hle', pre', hpre'⟩ := ih r0 q r hmr
        refine ⟨hv', hlen', ?_, ⟨q0 ++ pre', by rw [hs0, hpre']; simp⟩⟩
        have hsl : s.length = q0.length + r0.length := by rw [hs0]; simp
        omega

/-- When a sequence matches at the head, the (nonzero-bounded) run matches. -/
theorem matchRun_isSome (mb4 : Bool) (b : Nat) (s : List Nat)
    (h : (matchSeq mb4 s).isSome) : (matchRun mb4 (b + 1) s).isSome := by
  simp only [matchRun]
  obtain ⟨⟨q, r⟩, hp⟩ := Option.isSome_iff_exists.mp h
  rw [hp]
  cases hmr : matchRun mb4 b r <;> simp [hmr]

/-- The regex cleaning pass never lengthens the value. -/
theorem utf8Clean_len (mb4 : Bool) (fuel : Nat) : ∀ (s : List Nat),
    (utf8Clean mb4 fuel s).length ≤ s.length := by
  induction fuel with
  | zero => intro s; simp [utf8Clean]
  | succ n ih =>
    intro s
    cases s with
    | nil => simp [utf8Clean]
    | cons a t =>
      simp only [utf8Clean]
      cases hmr : matchRun mb4 40 (a :: t) with
      | some p =>
        obtain ⟨q, r⟩ := p
        obtain ⟨hv, hq, hle, hpre⟩ := matchRun_spec mb4 40 (a :: t) q r hmr
        have := ih r
        simp only [List.length_append, List.length_cons] at *
        omega
      | none =>
        have := ih t
        by_cases hlt : isLineTerm a = true
        · simp [hlt]
          omega
        · simp [hlt]
          omega

/-- Over byte-valued code units the cleaning pass produces a well-formed
value: every kept chunk is a complete valid sequence (the only units the
scan could leave untouched are the line separators U+2028/U+2029, which a
byte string cannot contain). -/
theorem utf8Clean_wf (mb4 : Bool) (fuel : Nat) : ∀ (s : List Nat),
    (∀ u ∈ s, u < 256) → WFUtf8 mb4 (utf8Clean mb4 fuel s) := by
  induction fuel with
  | zero => intro s _; simp only [utf8Clean]; exact .nil
  | succ n ih =>
    intro s hv
    cases s with
    | nil => simp only [utf8Clean]; exact .nil
    | cons a t =>
      simp only [utf8Clean]
      cases hmr : matchRun mb4 40 (a :: t) with
      | some p =>
        obtain ⟨q, r⟩ := p
        obtain ⟨hvq, hq, hle, pre, hpre⟩ := matchRun_spec mb4 40 (a :: t) q r hmr
        refine WFUtf8.cons q _ hvq (ih r ?_)
        intro u hu
        exact hv u (by rw [hpre]; exact List.mem_append_right _ hu)
      | none =>
        have hna : ¬ (a ≤ 0x7F) := by
          intro hle7
          have hsome : (matchSeq mb4 (a :: t)).isSome := by
            simp [matchSeq, hle7]
          have := matchRun_isSome mb4 39 (a :: t) hsome
          rw [hmr] at this
          simp at this
        have hnlt : isLineTerm a = false := by
          have ha := hv a (by simp)
          simp only [isLineTerm]
          have h1 : ¬ (a = 0x2028) := by omega
          have h2 : ¬ (a = 0x2029) := by omega
          have h3 : ¬ (a = 0x0A) := fun hh => hna (by omega)
          have h4 : ¬ (a = 0x0D) := fun hh => hna (by omega)
          simp [h1, h2, h3, h4]
        simp only [hnlt, if_false]
        exact ih t (fun u hu => hv u (by simp [hu]))

/-- Every code unit encodes to at least one byte. -/
theorem unitUtf8Len_pos (a : Nat) : 1 ≤ unitUtf8Len a := by
  unfold unitUtf8Len
  repeat' split
  all_goals omega

/-- The UTF-8 byte estimate dominates the unit count. -/
theorem len_le_utf8ByteLen : ∀ (s : List Nat), s.length ≤ utf8ByteLen s
  | [] => by simp [utf8ByteLen]
  | [a] => by simpa [utf8ByteLen] using unitUtf8Len_pos a
  | a :: b :: u => by
    simp only [utf8ByteLen]
    split
    · have := len_le_utf8ByteLen u
      simp only [List.length_cons]
      omega
    · have := len_le_utf8ByteLen (b :: u)
      have h1 := unitUtf8Len_pos a
      simp only [List.length_cons] at *
      omega

/-- Values that pass the `checkAscii` gate are 7-bit. -/
theorem checkAscii_le (s : List Nat) (h : checkAscii s = true) :
    ∀ u ∈ s, u ≤ 0x7F := by
  intro u hu
  unfold checkAscii at h
  split at h
  case isTrue h1 =>
    have h2 := List.all_eq_true.mp h1 u hu
    have h3 : u % 256 % 128 = u := by simpa using h2
    have h4 : u % 256 % 128 < 128 := Nat.mod_lt _ (by norm_num)
    omega
  case isFalse h1 =>
    split at h
    case isTrue h2 =>
      by_contra hc
      apply h2
      refine List.any_eq_true.mpr ⟨u, hu, ?_⟩
      simp only [decide_eq_true_eq]
      omega
    case isFalse h2 => simp at h

/-- A pure 7-bit value is well-formed (each unit a 1-byte sequence). -/
theorem wf_ascii (mb4 : Bool) (w : List Nat) (h : ∀ u ∈ w, u ≤ 0x7F) :
    WFUtf8 mb4 w := by
  induction w with
  | nil => exact .nil
  | cons a t ih =>
    have hwf : WFUtf8 mb4 ([a] ++ t) :=
      .cons [a] t (by simpa [ValidSeq] using h a (by simp))
        (ih fun u hu => h u (by simp [hu]))
    simpa using hwf

/-- The final byte-ceiling truncation is a no-op on a value already within
the ceiling, preserving well-formedness. -/
theorem byteTruncate_wf_len (mb4 : Bool) (L : Nat) (w : List Nat)
    (hwf : WFUtf8 mb4 w) (hlen : w.length ≤ L) :
    WFUtf8 mb4 (byteTruncate (some (L : Int)) w) ∧
    (byteTruncate (some (L : Int)) w).length ≤ L := by
  simp only [byteTruncate]
  split
  · rw [Int.toNat_ofNat, List.take_of_length_le hlen]
    exact ⟨hwf, hlen⟩
  · exact ⟨hwf, hlen⟩

/-- C5: for every string value (a byte string: all code units below 256)
whose column charset is a utf8-family charset and whose column carries a
byte-length ceiling, the value produced by `stripInvalidText` is
well-formed under that charset — a concatenation of complete valid
sequences, so no truncation point splits a multi-byte sequence, and 4-byte
sequences survive only when the charset is `utf8mb4` — and fits the byte
ceiling. -/
theorem c5_strip_invalid_text (cs : String) (hcs : cs ∈ utf8Family)
    (asciiDefined : Bool) (L : Nat) (v : List Nat) (hv : ∀ u ∈ v, u < 256) :
    WFUtf8 (decide (cs = "utf8mb4"))
      (stripValue (some cs) asciiDefined (some ⟨"byte", some (L : Int)⟩) v).1 ∧
    (stripValue (some cs) asciiDefined (some ⟨"byte", some (L : Int)⟩) v).1.length
      ≤ L := by
  have hlat : ¬ (cs = "latin1") := by
    intro hh
    rw [hh] at hcs
    simp [utf8Family] at hcs
  simp only [stripValue]
  by_cases hsc : cs = "latin1" ∨ (asciiDefined = false ∧ checkAscii v = true)
  · rw [if_pos hsc]
    have hca : checkAscii v = true := by
      rcases hsc with h | h
      · exact absurd h hlat
      · exact h.2
    have hasc : ∀ u ∈ v, u ≤ 0x7F := checkAscii_le v hca
    simp only [byteTruncate]
    split
    · constructor
      · exact wf_ascii _ _ (fun u hu => hasc u (List.take_subset _ _ hu))
      · rw [Int.toNat_ofNat]
        simp
    · constructor
      · exact wf_ascii _ _ hasc
      · have h1 := len_le_utf8ByteLen v
        omega
  · rw [if_neg hsc]
    rw [if_pos hcs]
    have hb : (decide (("byte" : String) = "byte")) = true := by decide
    simp only [hb, if_true]
    set v1 := byteTruncate (some (L : Int)) v with hv1def
    have hv1mem : ∀ u ∈ v1, u < 256 := by
      intro u hu
      rw [hv1def] at hu
      simp only [byteTruncate] at hu
      split at hu
      · exact hv u (List.take_subset _ _ hu)
      · exact hv u hu
    have hv1len : v1.length ≤ L := by
      rw [hv1def]
      simp only [byteTruncate]
      split
      · rw [Int.toNat_ofNat]
        simp
      · have h1 := len_le_utf8ByteLen v
        omega
    have hwf2 := utf8Clean_wf (decide (cs = "utf8mb4")) v1.length v1 hv1mem
    have hlen2 : (utf8Clean (decide (cs = "utf8mb4")) v1.length v1).length ≤ L :=
      le_trans (utf8Clean_len _ _ v1) hv1len
    exact byteTruncate_wf_len _ L _ hwf2 hlen2

/-- Witness for C5: the value `61 F0 9F 98 80` (an ASCII byte followed by a
4-byte sequence) under charset `utf8mb4` with byte ceiling 3. -/
theorem c5_strip_invalid_text_witness :
    WFUtf8 (decide (("utf8mb4" : String) = "utf8mb4"))
      (stripValue (some "utf8mb4") false (some ⟨"byte", some (3 : Int)⟩) c5V).1 ∧
    (stripValue (some "utf8mb4") false (some ⟨"byte", some (3 : Int)⟩) c5V).1.length
      ≤ 3 :=
  c5_strip_invalid_text "utf8mb4" (by decide) false 3 c5V (by decide)


/-- C6: in the tenant-enabled configuration (both multisite environment
flags truthy), the resolved table prefix is the bare base prefix for
tenants 0 and 1, and `basePrefix + tenant + "_"` for every other tenant. -/
theorem c6_tenant_resolution (env : PrefixEnv) (h1 : env.isMultisite = true)
    (h2 : env.multisite = true) (basePrefix : String) (tid tenant : Int) :
    ((tenant = 0 ∨ tenant = 1) →
      getBlogPrefix env basePrefix tid (some tenant) = basePrefix) ∧
    (tenant ≠ 0 → tenant ≠ 1 →
      getBlogPrefix env basePrefix tid (some tenant) =
        basePrefix ++ toString tenant ++ "_") := by
  constructor
  · intro h
    simp [getBlogPrefix, h1, h2, h]
  · intro h0 h1'
    simp [getBlogPrefix, h1, h2, h0, h1']

/-- Witness for C6 at tenant 1 and tenant 7 with base prefix "wp_". -/
theorem c6_tenant_resolution_witness :
    getBlogPrefix ⟨true, true⟩ "wp_" 0 (some 1) = "wp_" ∧
    getBlogPrefix ⟨true, true⟩ "wp_" 0 (some 7) = "wp_" ++ toString (7 : Int) ++ "_" := by
  refine ⟨(c6_tenant_resolution ⟨true, true⟩ rfl rfl "wp_" 0 1).1 (Or.inr rfl), ?_⟩
  exact (c6_tenant_resolution ⟨true, true⟩ rfl rfl "wp_" 0 7).2 (by decide) (by decide)

/-- C7 counterexample: the claim says `setPrefix` accepts exactly the
prefixes matching `^[A-Za-z0-9_]+$` (non-empty).  The empty prefix does not
match that pattern, yet `/[^a-z0-9_]/i.test('')` is false, so the code
accepts it (no invalid-prefix error). -/
theorem c7_empty_prefix_accepted :
    specPrefixPattern "" = false ∧
    (setPrefix env0 pst0 "" false).1 ≠ SetPrefixResult.err := by
  decide

/-- C7 as amended: `setPrefix` returns the invalid-prefix error exactly when
the prefix contains a character outside `[A-Za-z0-9_]` (in particular the
empty prefix is accepted), and on rejection the stored base prefix and
table-name fields are left unchanged. -/
theorem c7_prefix_validation (env : PrefixEnv) (st : PrefixState) (p : String)
    (stn : Bool) :
    ((setPrefix env st p stn).1 = .err ↔ ¬ (p.toList.all isPrefixWordChar = true)) ∧
    ((setPrefix env st p stn).1 = .err → (setPrefix env st p stn).2 = st) := by
  have hiff : invalidCharTest p = true ↔ ¬ (p.toList.all isPrefixWordChar = true) := by
    simp [invalidCharTest, List.any_eq_true, List.all_eq_true]
  by_cases h : invalidCharTest p = true
  · constructor
    · unfold setPrefix
      rw [if_pos h]
      simpa using hiff.mp h
    · intro _
      unfold setPrefix
      rw [if_pos h]
  · have hall : p.toList.all isPrefixWordChar = true := by
      by_contra hc
      exact h (hiff.mpr hc)
    constructor
    · unfold setPrefix
      rw [if_neg h]
      by_cases hstn : stn <;> simp [hstn, hall] <;>
        exact List.all_eq_true.mp hall
    · intro hc
      exfalso
      unfold setPrefix at hc
      rw [if_neg h] at hc
      by_cases hstn : stn <;> simp [hstn] at hc

/-- Witness for C7-as-amended at the rejected prefix "wp!" (the `!` is
outside the class): the call errors and the state is untouched. -/
theorem c7_prefix_validation_witness :
    (setPrefix env0 pst0 "wp!" false).1 = .err ∧
    (setPrefix env0 pst0 "wp!" false).2 = pst0 := by
  have h := c7_prefix_validation env0 pst0 "wp!" false
  have he : (setPrefix env0 pst0 "wp!" false).1 = .err := h.1.mpr (by decide)
  exact ⟨he, h.2 he⟩

/-- Helper for C8: with `WP_DEBUG` unset and no attempt throwing, the retry
loop runs to completion, in each iteration counting one attempt and one
delay. -/
theorem reconnectLoop_falsy (f : ConnFlags) (attempt : Nat → DbConnectResult)
    (retries : Nat) (hdbg : f.wpDebug = false)
    (hnt : ∀ n, attempt n ≠ .threw) :
    ∀ fuel tries att del, retries + 1 ≤ tries + fuel →
      reconnectLoop f attempt retries fuel tries att del =
        (none, att + (retries + 1 - tries), del + (retries + 1 - tries)) := by
  intro fuel
  induction fuel with
  | zero =>
    intro tries att del hle
    have h0 : retries + 1 - tries = 0 := by omega
    simp [reconnectLoop, h0]
  | succ fuel ih =>
    intro tries att del hle
    by_cases hgt : tries > retries
    · have h0 : retries + 1 - tries = 0 := by omega
      simp [reconnectLoop, hgt, h0]
    · have hrec := ih (tries + 1) (att + 1) (del + 1) (by omega)
      have harr : ¬ (f.wpDebug = true ∧ retries = tries) := by
        simp [hdbg]
      have hk : retries + 1 - tries = (retries + 1 - (tries + 1)) + 1 := by omega
      cases ha : attempt tries with
      | threw => exact absurd ha (hnt tries)
      | retFalse =>
        simp only [reconnectLoop, if_neg hgt, hdbg, ha, hrec]
        rw [if_neg (by simp)]
        simp only [Prod.mk.injEq]
        exact ⟨trivial, by omega, by omega⟩
      | retUndefined =>
        simp only [reconnectLoop, if_neg hgt, hdbg, ha, hrec]
        rw [if_neg (by simp)]
        simp only [Prod.mk.injEq]
        exact ⟨trivial, by omega, by omega⟩

/-- C8 counterexample: the claim says that whenever the probe fails and
every reconnection attempt fails, exactly 5 attempts and 5 delays happen
before a failure return.  But a reconnection attempt can also fail by
*throwing*: when `createConnection` fails, `dbConnect(false)` rethrows the
driver error (lines 1266-1271), and `checkConnection` awaits it with no
surrounding try/catch, so the exception escapes after the first attempt
with no delay at all -- 1 attempt, 0 delays, no return value. -/
theorem c8_throwing_attempt_aborts :
    checkConnection ⟨false, false, false, false⟩ false false
      (fun _ => dbConnectNoBail false false) 5 = (.thrown, 1, 0) := by
  rfl

/-- C8 as amended: when the probe fails and every reconnection attempt
fails *by returning a falsy value* (`dbConnect(false)` returning false on a
second-phase failure -- the only failure mode that does not abort
`checkConnection` by exception; note a fully successful `dbConnect(false)`
also returns the falsy `undefined`, so the loop's success branch is dead
and a truthy return is impossible), `checkConnection` performs exactly 5
attempts with exactly 5 fixed-interval delays and returns a failure value
(false, or undefined after a non-fatal bail).  Hypotheses pin the default
configuration: `WP_DEBUG` unset (otherwise the out-of-scope
`originalErrorReporting` read on the last try throws first) and
`showErrors` false, its field default (line 39), so `bail` takes its
non-fatal path rather than `process.exit`. -/
theorem c8_reconnect_five_attempts (f : ConnFlags) (allowBail probeOk : Bool)
    (attempt : Nat → DbConnectResult) (hdbg : f.wpDebug = false)
    (hse : f.showErrors = false)
    (hprobe : ¬ (f.dbhPresent = true ∧ probeOk = true))
    (hnt : ∀ n, attempt n ≠ .threw) :
    (checkConnection f allowBail probeOk attempt 5).2.1 = 5 ∧
    (checkConnection f allowBail probeOk attempt 5).2.2 = 5 ∧
    ((checkConnection f allowBail probeOk attempt 5).1 = .retFalse ∨
     (checkConnection f allowBail probeOk attempt 5).1 = .retNoValue) := by
  have hloop : reconnectLoop f attempt 5 6 1 0 0 = (none, 5, 5) := by
    simpa using reconnectLoop_falsy f attempt 5 hdbg hnt 6 1 0 0 (by omega)
  have hcc : ∃ o, checkConnection f allowBail probeOk attempt 5 = (o, 5, 5) ∧
      (o = .retFalse ∨ o = .retNoValue) := by
    unfold checkConnection
    rw [if_neg hprobe, hloop]
    by_cases htr : f.templateRedirect
    · exact ⟨.retFalse, by simp [htr], Or.inl rfl⟩
    · by_cases hab : allowBail
      · exact ⟨bailOutcome f, by simp [htr, hab], Or.inr (by simp [bailOutcome, hse])⟩
      · exact ⟨.retFalse, by simp [htr, hab], Or.inl rfl⟩
  obtain ⟨o, ho, hor⟩ := hcc
  rw [ho]
  exact ⟨rfl, rfl, by simpa using hor⟩

/-- Witness for C8-as-amended at a fully concrete configuration where every
attempt is a second-phase `dbConnect` failure (returning false). -/
theorem c8_reconnect_five_attempts_witness :
    (checkConnection ⟨false, false, false, false⟩ false false
        (fun _ => dbConnectNoBail true false) 5).2.1 = 5 ∧
    (checkConnection ⟨false, false, false, false⟩ false false
        (fun _ => dbConnectNoBail true false) 5).2.2 = 5 ∧
    ((checkConnection ⟨false, false, false, false⟩ false false
        (fun _ => dbConnectNoBail true false) 5).1 = .retFalse ∨
     (checkConnection ⟨false, false, false, false⟩ false false
        (fun _ => dbConnectNoBail true false) 5).1 = .retNoValue) :=
  c8_reconnect_five_attempts ⟨false, false, false, false⟩ false false
    (fun _ => dbConnectNoBail true false) rfl rfl (by simp)
    (fun n => by simp [dbConnectNoBail])

/-- C10: the backward-compatibility setter leaves the object untouched for
the four protected member names, and for every other name it sets exactly
that property and no other. -/
theorem c10_compat_setter {α : Type} (bag : List (String × α)) (name : String)
    (value : α) :
    (name ∈ protectedMembers → compatSet bag name value = bag) ∧
    (name ∉ protectedMembers →
      assocGet (compatSet bag name value) name = some value ∧
      ∀ other, other ≠ name →
        assocGet (compatSet bag name value) other = assocGet bag other) := by
  constructor
  · intro h
    simp [compatSet, h]
  · intro h
    simp only [compatSet, h, if_false]
    constructor
    · induction bag with
      | nil => simp [assocSet, assocGet]
      | cons hd tl ih =>
        by_cases hk : hd.1 = name <;> simp [assocSet, assocGet, hk, ih]
    · intro other hne
      have hne' : ¬ (name = other) := fun hh => hne hh.symm
      induction bag with
      | nil => simp [assocSet, assocGet, hne']
      | cons hd tl ih =>
        by_cases hk : hd.1 = name
        · simp [assocSet, assocGet, hk, hne']
        · simp [assocSet, assocGet, hk, ih]

/-- Witness for C10: the protected name `tableCharset` is a no-op on a
sample bag, and the unprotected name `blogId` is set without touching the
sibling property. -/
theorem c10_compat_setter_witness :
    compatSet [("blogId", 1)] "tableCharset" 9 = [("blogId", 1)] ∧
    assocGet (compatSet [("blogId", 1), ("siteId", 2)] "blogId" 5) "blogId" = some 5 ∧
    assocGet (compatSet [("blogId", 1), ("siteId", 2)] "blogId" 5) "siteId" =
      assocGet [("blogId", 1), ("siteId", 2)] "siteId" := by
  refine ⟨(c10_compat_setter [("blogId", 1)] "tableCharset" 9).1 (by decide), ?_, ?_⟩
  · exact ((c10_compat_setter [("blogId", 1), ("siteId", 2)] "blogId" 5).2 (by decide)).1
  · exact ((c10_compat_setter [("blogId", 1), ("siteId", 2)] "blogId" 5).2 (by decide)).2
      "siteId" (by decide)

end Nextpress
